import Mathlib

/-!
Verification of the Floorplan_Detection detection-overlay and annotation-editing
engine against its natural-language specification.

The embedding below is a shallow model of the TypeScript/React sources:

* `ResultViewer` (src/components/floorplan/ResultViewer.tsx and its newer
  revision): the `Prediction` record, the `COLORS` palette, `formatClassName`,
  the `localPredictions` initializer, `sortedPredictions`, `classColors`,
  `summaryData`, `toggleClass`, the drag handlers (`handleMouseDown` /
  `handleMouseMove` / `handleMouseUp`, with `onMouseLeave` wired to
  `handleMouseUp`), `removePrediction`, `handleGeneratePreview` and
  `handleSaveImage`, plus the overlay percentage conversion performed inline
  in the render loop (modelled here as `renderBox`).
* `Viewer` (src/components/Header.tsx bundle): `getStyleForBox` and
  `getNormalizedCoords`, the corner/normalized-to-1000 box encoding.

JavaScript numbers are modelled as exact rationals (`ℚ`); the arithmetic the
sources perform is plain field arithmetic on small values, so `ℚ` mirrors the
formulas exactly.  JavaScript strings are Lean `String`s; the ASCII case
mapping of `toUpperCase`/`toLowerCase` is modelled by `charUpper`/`charLower`
below.  React `useState` cells are gathered into the explicit `ViewerState`
record and every event handler becomes a state-transition function.
`Array.prototype.sort` (stable, comparator-driven) is modelled by a stable
insertion sort with the same comparator.
-/

namespace Floorplan

/-- ASCII model of JavaScript `String.prototype.toLowerCase` on one UTF-16
unit: code units 65–90 (`A`–`Z`) are shifted to 97–122, all others are kept. -/
def charLower (c : Char) : Char :=
if 65 ≤ c.toNat ∧ c.toNat ≤ 90 then Char.ofNat (c.toNat + 32) else c

/-- ASCII model of JavaScript `String.prototype.toUpperCase` on one UTF-16
unit: code units 97–122 (`a`–`z`) are shifted to 65–90, all others are kept. -/
def charUpper (c : Char) : Char :=
if 97 ≤ c.toNat ∧ c.toNat ≤ 122 then Char.ofNat (c.toNat - 32) else c

/-- JavaScript `s.toLowerCase()` (ASCII model), used to express "two labels
differ only in letter case" as equality of their lowercasings. -/
def jsToLowerCase (s : String) : String :=
⟨s.data.map charLower⟩

/-- Source: `formatClassName` in ResultViewer —
`name.charAt(0).toUpperCase() + name.slice(1).toLowerCase()`, with the empty
string returned unchanged (`if (!name) return ""`). -/
def formatClassName (name : String) : String :=
match name.data with
| [] => ""
| c :: rest => ⟨charUpper c :: rest.map charLower⟩

/-- Source: `interface Prediction` in ResultViewer.  `x`,`y` are the box
center and `width`,`height` its extents, all in source-image pixels. -/
structure Prediction where
«class» : String
x : ℚ
y : ℚ
width : ℚ
height : ℚ
confidence : ℚ
color : Option String := none
id : Option String := none
deriving DecidableEq, Repr

/-- Source: the `COLORS` palette constant in ResultViewer. -/
def COLORS : List String :=
["#6366f1", "#ec4899", "#22c55e", "#f97316", "#a855f7", "#0ea5e9", "#eab308", "#ef4444"]

/-- Source: the `localPredictions` state initializer —
`predictions.map(p => ({ ...p, class: formatClassName(p.class) }))`. -/
def initLocalPredictions (predictions : List Prediction) : List Prediction :=
predictions.map (fun p => { p with «class» := formatClassName p.«class» })

/-- Box area, the sort key of `sortedPredictions` (`a.width * a.height`). -/
def area (p : Prediction) : ℚ :=
p.width * p.height

/-- One insertion step of the stable sort modelling `Array.prototype.sort`
with comparator `(a, b) => areaB - areaA`: an element moves past exactly the
strictly larger-area elements, so equal-area elements keep their original
relative order (JS sort is stable). -/
def insertByAreaDesc (x : Prediction) : List Prediction → List Prediction
| [] => [x]
| y :: ys => if area x < area y then y :: insertByAreaDesc x ys else x :: y :: ys

/-- Source: `sortedPredictions = [...localPredictions].sort((a, b) => areaB - areaA)` —
stable sort by box area, descending. -/
def sortedPredictions (localPredictions : List Prediction) : List Prediction :=
localPredictions.foldr insertByAreaDesc []

/-- One step of the `classColors` construction: the source `forEach` body
`if (!classColors.has(p.class)) classColors.set(p.class, COLORS[classColors.size % COLORS.length])`.
The JS `Map` is modelled as an association list in key-insertion order, so
`classColors.size` is the list length. -/
def classColorsStep (m : List (String × String)) (p : Prediction) : List (String × String) :=
if (m.lookup p.«class»).isSome then m
else m ++ [(p.«class», COLORS.getD (m.length % COLORS.length) "")]

/-- Source: the `classColors` map, built by iterating `sortedPredictions` in
render order and assigning the next palette color at each first encounter. -/
def classColors (localPredictions : List Prediction) : List (String × String) :=
(sortedPredictions localPredictions).foldl classColorsStep []

/-- The percentage rectangle the overlay render loop computes for one
prediction (`left`/`top`/`width`/`height` CSS percentages). -/
structure PercentBox where
left : ℚ
top : ℚ
width : ℚ
height : ℚ
deriving DecidableEq, Repr

/-- Source: the inline conversion in the overlay render loop —
`left = ((pred.x - pred.width / 2) / imageWidth) * 100` and the three
companion formulas. -/
def renderBox (pred : Prediction) (imageWidth imageHeight : ℚ) : PercentBox :=
{ left := (pred.x - pred.width / 2) / imageWidth * 100
  top := (pred.y - pred.height / 2) / imageHeight * 100
  width := pred.width / imageWidth * 100
  height := pred.height / imageHeight * 100 }

/-- The CSS percentage rectangle produced by the `Viewer` component for the
corner/normalized-to-1000 encoding (field order as in the source). -/
structure CssBox where
top : ℚ
left : ℚ
height : ℚ
width : ℚ
deriving DecidableEq, Repr

/-- Source: the `activeTool` state of ResultViewer — `"add" | "remove"`. -/
inductive Tool where
| add : Tool
| remove : Tool
deriving DecidableEq, Repr

/-- A pointer position in display pixels relative to the rendered image, as
captured by the drag handlers (`drawStart` / `drawCurrent`). -/
structure Point where
x : ℚ
y : ℚ
deriving DecidableEq, Repr

/-- The rendered image element's bounding client rect
(`imageRef.current.getBoundingClientRect()`): only its width and height are
read by the handlers. -/
structure Rect where
width : ℚ
height : ℚ
deriving DecidableEq, Repr

/-- The `useState` cells of ResultViewer gathered into one record, together
with the `imageSrc` / `imageWidth` / `imageHeight` props the handlers read.
`imageWidth`/`imageHeight` are optional props; `exportImageSrc` starts as the
empty string (falsy) exactly as in the source. -/
structure ViewerState where
imageSrc : String
imageWidth : Option ℚ
imageHeight : Option ℚ
localPredictions : List Prediction
hoveredId : Option String
hiddenClasses : Finset String
isEditing : Bool
showExportModal : Bool
previewImage : Option String
activeTool : Tool
selectedClass : String
drawStart : Option Point
drawCurrent : Option Point
exportImageSrc : String

/-- Source: `toggleClass` — flips membership of `className` in the
`hiddenClasses` set. -/
def toggleClass (s : ViewerState) (className : String) : ViewerState :=
if className ∈ s.hiddenClasses then
  { s with hiddenClasses := s.hiddenClasses.erase className }
else
  { s with hiddenClasses := insert className s.hiddenClasses }

/-- JavaScript truthiness of an optional numeric prop: `undefined` and `0`
are falsy (`!imageWidth`). -/
def jsTruthy : Option ℚ → Bool
| none => false
| some q => q != 0

/-- The `setDrawStart(null); setDrawCurrent(null)` pair every exit path of
`handleMouseUp` performs. -/
def clearDrag (s : ViewerState) : ViewerState :=
{ s with drawStart := none, drawCurrent := none }

/-- Source: `handleMouseUp` in ResultViewer.  `rect` is the rendered image's
bounding rect and `newId` the value `Math.random().toString(36).substr(2, 9)`
produced for the new element.  Guard order as in the source: any of
`!isEditing`, wrong tool, missing drag state or falsy image dimensions clears
the drag state and returns; a drag rectangle with display-space width or
height `< 10` is discarded; otherwise the drag rectangle is scaled by
`imageWidth / rect.width` and `imageHeight / rect.height` into a center-size
box and appended with `confidence = 1.0`. -/
def handleMouseUp (s : ViewerState) (rect : Rect) (newId : String) : ViewerState :=
match s.drawStart, s.drawCurrent, s.imageWidth, s.imageHeight with
| some start, some curr, some imageWidth, some imageHeight =>
  if s.isEditing = true ∧ s.activeTool = Tool.add ∧ imageWidth ≠ 0 ∧ imageHeight ≠ 0 then
    let x1 := min start.x curr.x
    let y1 := min start.y curr.y
    let w := |curr.x - start.x|
    let h := |curr.y - start.y|
    if w < 10 ∨ h < 10 then clearDrag s
    else
      let scaleX := imageWidth / rect.width
      let scaleY := imageHeight / rect.height
      let newPrediction : Prediction :=
        { «class» := s.selectedClass
          x := (x1 + w / 2) * scaleX
          y := (y1 + h / 2) * scaleY
          width := w * scaleX
          height := h * scaleY
          confidence := 1
          id := some newId }
      clearDrag { s with localPredictions := s.localPredictions ++ [newPrediction] }
  else clearDrag s
| _, _, _, _ => clearDrag s

/-- Source: the JSX wiring `onMouseLeave={handleMouseUp}` on the image
container — the pointer leaving the image area runs exactly the mouse-up
handler. -/
def handleMouseLeave (s : ViewerState) (rect : Rect) (newId : String) : ViewerState :=
handleMouseUp s rect newId

/-- Source: `removePrediction` — gated on edit mode with the remove tool, then
`setLocalPredictions(prev => prev.filter(p => p !== predToRemove))`.  The JS
`!==` is reference inequality; distinct scene elements are distinct object
references, modelled by structural filtering of an element that occurs at most
once. -/
def removePrediction (s : ViewerState) (predToRemove : Prediction) : ViewerState :=
if s.isEditing = true ∧ s.activeTool = Tool.remove then
  { s with localPredictions := s.localPredictions.filter (fun p => p ≠ predToRemove) }
else s

/-- Source: `getStyleForBox` in the `Viewer` component —
`const [ymin, xmin, ymax, xmax] = box` (extra entries ignored) followed by
`top = ymin/10`, `left = xmin/10`, `height = (ymax-ymin)/10`,
`width = (xmax-xmin)/10`.  A box with fewer than four entries would
destructure to `undefined`/`NaN` in JS; it is mapped to `none` here. -/
def getStyleForBox (box : List ℚ) : Option CssBox :=
match box with
| ymin :: xmin :: ymax :: xmax :: _ =>
  some { top := ymin / 10, left := xmin / 10, height := (ymax - ymin) / 10, width := (xmax - xmin) / 10 }
| _ => none

/-- One summary entry: the element count of a class and the render-order index
of its first occurrence (`{ count, firstIndex }` in the source). -/
structure SummaryEntry where
count : Nat
firstIndex : Nat
deriving DecidableEq, Repr

/-- The body of the `summaryData` reduce for one element at render index
`idx`: `if (!acc[curr.class]) acc[curr.class] = { count: 0, firstIndex: idx };
acc[curr.class].count += 1`.  The JS record is modelled as an association list
in key-insertion order (the order `Object.entries` yields for string keys). -/
def summaryStep (acc : List (String × SummaryEntry)) (idx : Nat) (p : Prediction) :
    List (String × SummaryEntry) :=
let acc' := if (acc.lookup p.«class»).isSome then acc
  else acc ++ [(p.«class», { count := 0, firstIndex := idx })]
acc'.map (fun kv => if kv.1 = p.«class» then (kv.1, { kv.2 with count := kv.2.count + 1 }) else kv)

/-- The indexed left fold underlying `summaryData` (the source `reduce` with
its index argument). -/
def summaryGo (idx : Nat) (acc : List (String × SummaryEntry)) :
    List Prediction → List (String × SummaryEntry)
| [] => acc
| p :: rest => summaryGo (idx + 1) (summaryStep acc idx p) rest

/-- The element count carried by an optional summary entry (`0` when the
entry is absent); measure used to state the summary invariants. -/
def optCount : Option SummaryEntry → Nat
| none => 0
| some e => e.count

/-- Source: `summaryData = sortedPredictions.reduce(...)` — per-class counts
and first render-order indices, computed over the render-sorted element list
(and over nothing else: `hiddenClasses` is not consulted). -/
def summaryData (localPredictions : List Prediction) : List (String × SummaryEntry) :=
summaryGo 0 [] (sortedPredictions localPredictions)

/-- Source: `getNormalizedCoords` in the `Viewer` component — a display-pixel
position relative to the rendered image is normalized to the 0–1000 scale with
`Math.round` and clamped:
`Math.max(0, Math.min(1000, Math.round((x / rect.width) * 1000)))`. -/
def getNormalizedCoords (rect : Rect) (x y : ℚ) : ℤ × ℤ :=
(max 0 (min 1000 (round (x / rect.width * 1000))),
 max 0 (min 1000 (round (y / rect.height * 1000))))

/-- CSS semantics of the percentage rectangle produced by `renderBox`: a
`left:p%` offset inside a rendered image of width `rect.width` sits at
`p / 100 * rect.width` display pixels (top/width/height alike).  This is the
browser-defined bridge between the two conversions under test in the
round-trip property. -/
def displayPxRect (b : PercentBox) (rect : Rect) : Point × ℚ × ℚ :=
({ x := b.left / 100 * rect.width, y := b.top / 100 * rect.height },
 b.width / 100 * rect.width, b.height / 100 * rect.height)

/-- The display-to-storage scaling of `handleMouseUp` in isolation (source
lines computing `scaleX`, `scaleY`, `centerX`, `centerY`, `newWidth`,
`newHeight` from a display rectangle with corner `(x1, y1)` and size
`(w, h)`). -/
def dragToStorage (x1 y1 w h : ℚ) (imageWidth imageHeight : ℚ) (rect : Rect) :
    ℚ × ℚ × ℚ × ℚ :=
let scaleX := imageWidth / rect.width
let scaleY := imageHeight / rect.height
((x1 + w / 2) * scaleX, (y1 + h / 2) * scaleY, w * scaleX, h * scaleY)

/-- Source: `handleGeneratePreview` in ResultViewer, as a state transition.
The DOM/async collaborators are inputs: `captureAvailable` stands for
`captureRef.current` being non-null, `convertedSrc` for the result of
`convertBlobToDataUrl(imageSrc)` (that helper resolves with the original
`blobUrl` on failure — its own fallback), and `captureResult` for the outcome
of `toPng` (`none` = the capture threw).  State writes mirror the source:
`setExportImageSrc` when the export source was still empty and `imageSrc` is
truthy, then `setPreviewImage` + `setShowExportModal(true)` only when the
capture succeeded; the `catch` branch only logs. -/
def handleGeneratePreview (s : ViewerState) (captureAvailable : Bool)
    (convertedSrc : String) (captureResult : Option String) : ViewerState :=
if captureAvailable = false then s
else
  let s1 := if s.exportImageSrc = "" ∧ s.imageSrc ≠ "" then { s with exportImageSrc := convertedSrc } else s
  match captureResult with
  | some dataUrl => { s1 with previewImage := some dataUrl, showExportModal := true }
  | none => s1

/-- Source: `handleSaveImage` — returns early when no preview exists,
otherwise clicks a synthesized download link for `previewImage`.  It performs
no state write; the second component is the href handed to the download
link. -/
def handleSaveImage (s : ViewerState) : ViewerState × Option String :=
match s.previewImage with
| none => (s, none)
| some img => (s, some img)

/-- A baseline editor state over an 800×600 image rendered at natural size,
used to instantiate the drag-gesture theorems on concrete inputs. -/
def baseState : ViewerState :=
{ imageSrc := "blob:floorplan"
  imageWidth := some 800
  imageHeight := some 600
  localPredictions := []
  hoveredId := none
  hiddenClasses := ∅
  isEditing := true
  showExportModal := false
  previewImage := none
  activeTool := Tool.add
  selectedClass := "Window"
  drawStart := some { x := 0, y := 0 }
  drawCurrent := some { x := 12, y := 12 }
  exportImageSrc := "" }

/-- An in-progress 50×50 drag in add mode over a 100×100 image rendered at
natural size. -/
def leaveState : ViewerState :=
{ imageSrc := "blob:floorplan"
  imageWidth := some 100
  imageHeight := some 100
  localPredictions := []
  hoveredId := none
  hiddenClasses := ∅
  isEditing := true
  showExportModal := false
  previewImage := none
  activeTool := Tool.add
  selectedClass := "Door"
  drawStart := some { x := 0, y := 0 }
  drawCurrent := some { x := 50, y := 50 }
  exportImageSrc := "" }

/-- A class-`A` element of area 4: the largest element of `colorState`. -/
def predBigA : Prediction :=
{ «class» := "A", x := 1, y := 1, width := 2, height := 2, confidence := 9/10, id := some "a1" }

/-- A second class-`A` element with a different box, used to instantiate the
color-determinism theorem on two scenes with equal render-order labels. -/
def predBigA2 : Prediction :=
{ «class» := "A", x := 7, y := 9, width := 3, height := 1, confidence := 1/2, id := some "a2" }

/-- A class-`B` element of area 1: the smallest element of `colorState`. -/
def predSmallB : Prediction :=
{ «class» := "B", x := 1, y := 1, width := 1, height := 1, confidence := 9/10, id := some "b1" }

/-- A scene whose render order is `A` before `B`, in add mode with a pending
30×30 drag that will append a large class-`B` element. -/
def colorState : ViewerState :=
{ imageSrc := "blob:floorplan"
  imageWidth := some 100
  imageHeight := some 100
  localPredictions := [predBigA, predSmallB]
  hoveredId := none
  hiddenClasses := ∅
  isEditing := true
  showExportModal := false
  previewImage := none
  activeTool := Tool.add
  selectedClass := "B"
  drawStart := some { x := 0, y := 0 }
  drawCurrent := some { x := 30, y := 30 }
  exportImageSrc := "" }

/-- A detected door element used by the summary and removal examples. -/
def doorPred : Prediction :=
{ «class» := "Door", x := 100, y := 50, width := 40, height := 20, confidence := 9/10, id := some "d1" }

/-- A detected window element used by the removal example. -/
def windowPred : Prediction :=
{ «class» := "Window", x := 200, y := 80, width := 30, height := 30, confidence := 8/10, id := some "w1" }

/-- A scene holding one door element whose class has been toggled hidden. -/
def summaryState : ViewerState :=
{ imageSrc := "blob:floorplan"
  imageWidth := some 800
  imageHeight := some 600
  localPredictions := [doorPred]
  hoveredId := none
  hiddenClasses := {"Door"}
  isEditing := false
  showExportModal := false
  previewImage := none
  activeTool := Tool.add
  selectedClass := "Door"
  drawStart := none
  drawCurrent := none
  exportImageSrc := "" }

/-- A two-element scene in remove mode, used to instantiate the removal
theorem. -/
def removeState : ViewerState :=
{ imageSrc := "blob:floorplan"
  imageWidth := some 800
  imageHeight := some 600
  localPredictions := [doorPred, windowPred]
  hoveredId := none
  hiddenClasses := ∅
  isEditing := true
  showExportModal := false
  previewImage := none
  activeTool := Tool.remove
  selectedClass := "Door"
  drawStart := none
  drawCurrent := none
  exportImageSrc := "" }

end Floorplan

namespace Floorplan

/-- C1: the overlay render conversion for the center-size encoding follows the
four spec formulas for every element and image size, and on the spec's example
(`door`, x=100, y=50, width=40, height=20 over an 800×600 image) yields
left = 10 %, width = 5 %, top = 20/3 % (6.67 % at two decimals) and
height = 10/3 % (3.33 % at two decimals). -/
theorem renderBox_center_size_formulas :
    (∀ (pred : Prediction) (imageWidth imageHeight : ℚ),
      renderBox pred imageWidth imageHeight =
        { left := (pred.x - pred.width / 2) / imageWidth * 100
          top := (pred.y - pred.height / 2) / imageHeight * 100
          width := pred.width / imageWidth * 100
          height := pred.height / imageHeight * 100 }) ∧
    (renderBox { «class» := "door", x := 100, y := 50, width := 40, height := 20, confidence := 9/10 } 800 600).left = 10 ∧
    (renderBox { «class» := "door", x := 100, y := 50, width := 40, height := 20, confidence := 9/10 } 800 600).top = 20/3 ∧
    round ((renderBox { «class» := "door", x := 100, y := 50, width := 40, height := 20, confidence := 9/10 } 800 600).top * 100) = (667 : ℤ) ∧
    (renderBox { «class» := "door", x := 100, y := 50, width := 40, height := 20, confidence := 9/10 } 800 600).width = 5 ∧
    (renderBox { «class» := "door", x := 100, y := 50, width := 40, height := 20, confidence := 9/10 } 800 600).height = 10/3 ∧
    round ((renderBox { «class» := "door", x := 100, y := 50, width := 40, height := 20, confidence := 9/10 } 800 600).height * 100) = (333 : ℤ) := by
  refine ⟨fun pred iW iH => rfl, ?_, ?_, ?_, ?_, ?_, ?_⟩
  · norm_num [renderBox]
  · norm_num [renderBox]
  · rw [round_eq]; norm_num [renderBox]
  · norm_num [renderBox]
  · norm_num [renderBox]
  · rw [round_eq]; norm_num [renderBox]

/-- C7: the `Viewer` component renders a corner/normalized-to-1000 box
`[ymin, xmin, ymax, xmax]` at top = ymin/10, left = xmin/10,
width = (xmax-xmin)/10, height = (ymax-ymin)/10; consequently the box's right
edge lands at xmax/10 and its bottom edge at ymax/10. -/
theorem getStyleForBox_corner1000 :
    ∀ ymin xmin ymax xmax : ℚ,
      getStyleForBox [ymin, xmin, ymax, xmax] =
        some { top := ymin / 10, left := xmin / 10, height := (ymax - ymin) / 10, width := (xmax - xmin) / 10 } ∧
      xmin / 10 + (xmax - xmin) / 10 = xmax / 10 ∧
      ymin / 10 + (ymax - ymin) / 10 = ymax / 10 := by
  intro ymin xmin ymax xmax
  refine ⟨rfl, by ring, by ring⟩

theorem handleMouseUp_drag_cleared (s : ViewerState) (rect : Rect) (newId : String) :
    (handleMouseUp s rect newId).drawStart = none ∧
    (handleMouseUp s rect newId).drawCurrent = none := by
  unfold handleMouseUp
  rcases s.drawStart with _ | start <;> rcases s.drawCurrent with _ | curr <;>
    rcases s.imageWidth with _ | iW <;> rcases s.imageHeight with _ | iH <;>
    dsimp only <;> (try exact ⟨rfl, rfl⟩) <;>
    split_ifs <;> exact ⟨rfl, rfl⟩

/-- C2: completing a drag in add mode with valid image dimensions appends no
element when the drag rectangle's display width or height is below 10 pixels,
and appends exactly one element — with `confidence = 1.0`, the freshly
generated id, and the selected class — when both are at least 10 pixels. -/
theorem handleMouseUp_min_size (s : ViewerState) (rect : Rect) (newId : String)
    (start curr : Point) (iW iH : ℚ)
    (hEdit : s.isEditing = true) (hTool : s.activeTool = Tool.add)
    (hStart : s.drawStart = some start) (hCurr : s.drawCurrent = some curr)
    (hW : s.imageWidth = some iW) (hH : s.imageHeight = some iH)
    (hW0 : iW ≠ 0) (hH0 : iH ≠ 0) :
    ((|curr.x - start.x| < 10 ∨ |curr.y - start.y| < 10) →
      (handleMouseUp s rect newId).localPredictions = s.localPredictions) ∧
    (10 ≤ |curr.x - start.x| → 10 ≤ |curr.y - start.y| →
      ∃ p : Prediction,
        (handleMouseUp s rect newId).localPredictions = s.localPredictions ++ [p] ∧
        p.confidence = 1 ∧ p.id = some newId ∧ p.«class» = s.selectedClass) := by
  unfold handleMouseUp
  rw [hStart, hCurr, hW, hH]
  simp only [hEdit, hTool, hW0, hH0, ne_eq, not_false_iff, and_self, if_true, true_and]
  constructor
  · intro hsmall
    rw [if_pos hsmall]
    rfl
  · intro hw hh
    rw [if_neg (by push_neg; exact ⟨hw, hh⟩)]
    exact ⟨_, rfl, rfl, rfl, rfl⟩

theorem handleMouseUp_min_size_witness :
    (10:ℚ) ≤ |(12:ℚ) - 0| ∧
    ∃ p : Prediction,
      (handleMouseUp baseState { width := 800, height := 600 } "k7f2q9x1z").localPredictions =
        baseState.localPredictions ++ [p] ∧
      p.confidence = 1 ∧ p.id = some "k7f2q9x1z" ∧ p.«class» = baseState.selectedClass := by
  refine ⟨by norm_num, ?_⟩
  have h := (handleMouseUp_min_size baseState { width := 800, height := 600 } "k7f2q9x1z"
      { x := 0, y := 0 } { x := 12, y := 12 } 800 600
      rfl rfl rfl rfl rfl rfl (by norm_num) (by norm_num)).2
  exact h (by norm_num) (by norm_num)

/-- C3 counterexample: with an in-progress 50×50 drag in add mode and valid
image dimensions, the pointer leaving the image area (wired to
`handleMouseUp`) appends an element instead of cancelling the drag without
residual effect. -/
theorem mouseLeave_adds_element_counterexample :
    leaveState.isEditing = true ∧
    leaveState.activeTool = Tool.add ∧
    leaveState.drawStart = some { x := 0, y := 0 } ∧
    leaveState.drawCurrent = some { x := 50, y := 50 } ∧
    (handleMouseLeave leaveState { width := 100, height := 100 } "z1").localPredictions.length =
      leaveState.localPredictions.length + 1 := by
  refine ⟨rfl, rfl, rfl, rfl, ?_⟩
  norm_num [handleMouseLeave, handleMouseUp, leaveState, clearDrag]

/-- C3 amended: the pointer leaving the image area runs exactly the mouse-up
handler: the drag state is always cleared, and the drag is committed — not
cancelled — whenever mouse-up would commit it (both dimensions ≥ 10 in add
mode with valid image dimensions); only sub-threshold drags are discarded. -/
theorem mouseLeave_commits_drag :
    ∀ (s : ViewerState) (rect : Rect) (newId : String),
      handleMouseLeave s rect newId = handleMouseUp s rect newId ∧
      (handleMouseLeave s rect newId).drawStart = none ∧
      (handleMouseLeave s rect newId).drawCurrent = none := by
  intro s rect newId
  exact ⟨rfl, (handleMouseUp_drag_cleared s rect newId).1, (handleMouseUp_drag_cleared s rect newId).2⟩

/-- C9: the export pipeline never mutates the scene — `handleGeneratePreview`
leaves `localPredictions`, `hiddenClasses` and `activeTool` unchanged whatever
the availability of the capture target, the image-conversion result and the
capture outcome (success or failure), and `handleSaveImage` performs no state
write at all. -/
theorem export_preserves_scene :
    ∀ (s : ViewerState) (captureAvailable : Bool) (convertedSrc : String)
      (captureResult : Option String),
      (handleGeneratePreview s captureAvailable convertedSrc captureResult).localPredictions =
        s.localPredictions ∧
      (handleGeneratePreview s captureAvailable convertedSrc captureResult).hiddenClasses =
        s.hiddenClasses ∧
      (handleGeneratePreview s captureAvailable convertedSrc captureResult).activeTool =
        s.activeTool ∧
      (handleSaveImage s).1 = s := by
  intro s captureAvailable convertedSrc captureResult
  unfold handleGeneratePreview handleSaveImage
  rcases captureAvailable <;> rcases captureResult <;> rcases s.previewImage <;>
    simp <;> split <;> simp

/-- C6: the storage → display → storage round trip is exact in both
encodings.  Center-size: rendering a box as CSS percentages, realizing those
percentages as display pixels in the rendered image, and scaling the
resulting drag rectangle back with `scaleX = imageWidth / rect.width`,
`scaleY = imageHeight / rect.height` reproduces the original center and size
exactly.  Corner/1000: a corner stored as integers in [0,1000], placed at its
display-pixel position by the rendered percentages, is reproduced exactly by
`getNormalizedCoords` (the `Math.round` and clamp are the identity there). -/
theorem box_roundtrip :
    (∀ (pred : Prediction) (iW iH rW rH : ℚ),
      iW ≠ 0 → iH ≠ 0 → rW ≠ 0 → rH ≠ 0 →
      dragToStorage
        ((displayPxRect (renderBox pred iW iH) { width := rW, height := rH }).1).x
        ((displayPxRect (renderBox pred iW iH) { width := rW, height := rH }).1).y
        (displayPxRect (renderBox pred iW iH) { width := rW, height := rH }).2.1
        (displayPxRect (renderBox pred iW iH) { width := rW, height := rH }).2.2
        iW iH { width := rW, height := rH } =
        (pred.x, pred.y, pred.width, pred.height)) ∧
    (∀ (xmin ymin : ℤ) (rW rH : ℚ),
      0 ≤ xmin → xmin ≤ 1000 → 0 ≤ ymin → ymin ≤ 1000 → 0 < rW → 0 < rH →
      getNormalizedCoords { width := rW, height := rH }
        ((xmin : ℚ) / 10 / 100 * rW) ((ymin : ℚ) / 10 / 100 * rH) = (xmin, ymin)) := by
  constructor
  · intro pred iW iH rW rH hiW hiH hrW hrH
    simp only [dragToStorage, displayPxRect, renderBox, Prod.mk.injEq]
    refine ⟨?_, ?_, ?_, ?_⟩ <;> (field_simp; ring)
  · intro xmin ymin rW rH hx0 hx1 hy0 hy1 hrW hrH
    unfold getNormalizedCoords
    have exX : (xmin : ℚ) / 10 / 100 * rW / rW * 1000 = ((xmin : ℤ) : ℚ) := by
      field_simp
      ring
    have exY : (ymin : ℚ) / 10 / 100 * rH / rH * 1000 = ((ymin : ℤ) : ℚ) := by
      field_simp
      ring
    simp only [exX, exY, round_intCast, Prod.mk.injEq]
    constructor
    · rw [min_eq_right hx1, max_eq_right hx0]
    · rw [min_eq_right hy1, max_eq_right hy0]

theorem box_roundtrip_witness :
    dragToStorage
      ((displayPxRect (renderBox doorPred 800 600) { width := 400, height := 300 }).1).x
      ((displayPxRect (renderBox doorPred 800 600) { width := 400, height := 300 }).1).y
      (displayPxRect (renderBox doorPred 800 600) { width := 400, height := 300 }).2.1
      (displayPxRect (renderBox doorPred 800 600) { width := 400, height := 300 }).2.2
      800 600 { width := 400, height := 300 } = (100, 50, 40, 20) ∧
    getNormalizedCoords { width := 400, height := 300 }
      ((250 : ℚ) / 10 / 100 * 400) ((100 : ℚ) / 10 / 100 * 300) = (250, 100) := by
  constructor
  · exact box_roundtrip.1 doorPred 800 600 400 300
      (by norm_num) (by norm_num) (by norm_num) (by norm_num)
  · exact box_roundtrip.2 250 100 400 300
      (by norm_num) (by norm_num) (by norm_num) (by norm_num) (by norm_num) (by norm_num)

theorem count_eq_one_filter_ne {α : Type} [DecidableEq α] (l : List α) (a : α)
    (h : l.count a = 1) : l.filter (fun x => x ≠ a) = l.erase a := by
  induction l with
  | nil => simp at h
  | cons b bs ih =>
    rw [List.count_cons] at h
    by_cases hba : b = a
    · subst hba
      simp only [beq_self_eq_true, if_true] at h
      have h0 : bs.count b = 0 := by omega
      have hnot : b ∉ bs := by rwa [← List.count_eq_zero]
      rw [List.erase_cons_head, List.filter_cons, if_neg (by simp)]
      rw [List.filter_eq_self]
      intro x hx
      simp only [ne_eq, decide_eq_true_eq]
      exact fun hxb => hnot (hxb ▸ hx)
    · rw [List.erase_cons_tail (by simpa using hba), List.filter_cons]
      have hfalse : (b == a) = false := by simpa using hba
      simp only [hfalse, Bool.false_eq_true, if_false] at h
      have hrec := ih (by omega)
      simp only [ne_eq, hba, not_false_eq_true, hrec]
      rw [if_pos (by simp)]

/-- C8: with the remove tool active, removing an element present (exactly
once, as object references are) shortens the element list by exactly one and
leaves the remaining elements — ids, boxes and order — untouched (the result
is the list with that one element erased); removing an element not in the
scene is a no-op. -/
theorem removePrediction_spec (s : ViewerState) (pred : Prediction)
    (hEdit : s.isEditing = true) (hTool : s.activeTool = Tool.remove) :
    (s.localPredictions.count pred = 1 →
      (removePrediction s pred).localPredictions.length + 1 = s.localPredictions.length ∧
      (removePrediction s pred).localPredictions = s.localPredictions.erase pred) ∧
    (pred ∉ s.localPredictions →
      (removePrediction s pred).localPredictions = s.localPredictions) := by
  unfold removePrediction
  rw [if_pos ⟨hEdit, hTool⟩]
  dsimp only
  constructor
  · intro h1
    have he := count_eq_one_filter_ne s.localPredictions pred h1
    have hmem : pred ∈ s.localPredictions := by
      have : 0 < s.localPredictions.count pred := by omega
      exact List.count_pos_iff.mp this
    refine ⟨?_, he⟩
    rw [he, List.length_erase_of_mem hmem]
    have : 0 < s.localPredictions.length := List.length_pos_of_mem hmem
    omega
  · intro h2
    rw [List.filter_eq_self]
    intro x hx
    simp only [ne_eq, decide_eq_true_eq]
    exact fun hxp => h2 (hxp ▸ hx)

/-- C4 counterexample: in a scene where class `A` (large) precedes class `B`
(small) in render order, `B` is assigned the second palette color; committing
an add of a large `B` element re-sorts the render order, and `B`'s color
changes to the first palette color even though `B` was already present. -/
theorem classColors_mutation_counterexample :
    (classColors colorState.localPredictions).lookup "B" = some "#ec4899" ∧
    (classColors
        (handleMouseUp colorState { width := 100, height := 100 } "b2").localPredictions).lookup
      "B" = some "#6366f1" := by
  constructor
  · norm_num [classColors, sortedPredictions, insertByAreaDesc, classColorsStep, area,
      colorState, predBigA, predSmallB, COLORS, List.lookup]
    decide
  · norm_num [handleMouseUp, clearDrag, classColors, sortedPredictions, insertByAreaDesc,
      classColorsStep, area, colorState, predBigA, predSmallB, COLORS, List.lookup]

theorem foldl_classColorsStep_congr (l₁ l₂ : List Prediction) (m : List (String × String))
    (h : l₁.map (fun p => p.«class») = l₂.map (fun p => p.«class»)) :
    l₁.foldl classColorsStep m = l₂.foldl classColorsStep m := by
  induction l₁ generalizing l₂ m with
  | nil =>
    cases l₂ with
    | nil => rfl
    | cons q qs => simp at h
  | cons p ps ih =>
    cases l₂ with
    | nil => simp at h
    | cons q qs =>
      simp only [List.map_cons, List.cons.injEq] at h
      obtain ⟨hc, ht⟩ := h
      simp only [List.foldl_cons]
      have hstep : classColorsStep m p = classColorsStep m q := by
        unfold classColorsStep
        rw [hc]
      rw [hstep]
      exact ih qs (classColorsStep m q) ht

/-- C4 amended: the color assignment is a function of the render-order
sequence of class labels alone — two scenes whose area-sorted element lists
carry the same class labels in the same order get identical color maps (so a
label's color is stable across re-renders of an unchanged scene, and under
any mutation that preserves the render-order label sequence; a mutation that
changes it, as in the counterexample, can recolor an existing label). -/
theorem classColors_render_order_determinism (ps qs : List Prediction)
    (h : (sortedPredictions ps).map (fun p => p.«class») =
      (sortedPredictions qs).map (fun p => p.«class»)) :
    classColors ps = classColors qs :=
  foldl_classColorsStep_congr _ _ [] h

theorem classColors_render_order_determinism_witness :
    (sortedPredictions [predBigA]).map (fun p => p.«class») =
      (sortedPredictions [predBigA2]).map (fun p => p.«class») ∧
    classColors [predBigA] = classColors [predBigA2] :=
  ⟨rfl, classColors_render_order_determinism [predBigA] [predBigA2] rfl⟩

theorem insertByAreaDesc_perm (x : Prediction) (l : List Prediction) :
    (insertByAreaDesc x l).Perm (x :: l) := by
  induction l with
  | nil => exact List.Perm.refl _
  | cons y ys ih =>
    unfold insertByAreaDesc
    split
    · exact ((ih.cons y).trans (List.Perm.swap x y ys))
    · exact List.Perm.refl _

theorem sortedPredictions_perm (ps : List Prediction) :
    (sortedPredictions ps).Perm ps := by
  unfold sortedPredictions
  induction ps with
  | nil => exact List.Perm.refl _
  | cons p ts ih =>
    simp only [List.foldr_cons]
    exact (insertByAreaDesc_perm p _).trans (ih.cons p)

theorem lookup_pair_cons {β : Type} (k : String) (e : β) (rest : List (String × β)) (c : String) :
    List.lookup c ((k, e) :: rest) = if c = k then some e else List.lookup c rest := by
  rw [List.lookup_cons]
  by_cases h : c = k
  · subst h
    simp
  · rw [beq_false_of_ne h, if_neg h]

theorem lookup_entries_append (l l' : List (String × SummaryEntry)) (c : String) :
    (l ++ l').lookup c = ((l.lookup c).or (l'.lookup c)) := by
  induction l with
  | nil => simp [List.lookup]
  | cons kv rest ih =>
    obtain ⟨k₁, e₁⟩ := kv
    rw [List.cons_append, lookup_pair_cons, lookup_pair_cons]
    by_cases h : c = k₁
    · rw [if_pos h, if_pos h]
      rfl
    · rw [if_neg h, if_neg h, ih]

theorem lookup_bump_map (l : List (String × SummaryEntry)) (k c : String) :
    (l.map (fun kv => if kv.1 = k then (kv.1, { kv.2 with count := kv.2.count + 1 }) else kv)).lookup c =
      if c = k then (l.lookup c).map (fun e => { e with count := e.count + 1 }) else l.lookup c := by
  induction l with
  | nil => by_cases h : c = k <;> simp [List.lookup, h]
  | cons kv rest ih =>
    obtain ⟨k₁, e₁⟩ := kv
    simp only [List.map_cons]
    by_cases h1 : k₁ = k
    · rw [if_pos h1]
      rw [lookup_pair_cons, lookup_pair_cons]
      by_cases h2 : c = k₁
      · rw [if_pos h2, if_pos (h2.trans h1), if_pos h2]
        rfl
      · rw [if_neg h2, ih]
        by_cases hck : c = k
        · rw [if_pos hck, if_pos hck, if_neg h2]
        · rw [if_neg hck, if_neg hck, if_neg h2]
    · rw [if_neg h1]
      rw [lookup_pair_cons, lookup_pair_cons]
      by_cases h2 : c = k₁
      · have hck : ¬ c = k := fun hc => h1 (h2 ▸ hc)
        rw [if_pos h2, if_neg hck, if_pos h2]
      · rw [if_neg h2, ih]
        by_cases hck : c = k
        · rw [if_pos hck, if_pos hck, if_neg h2]
        · rw [if_neg hck, if_neg hck, if_neg h2]

theorem summaryStep_lookup_count (acc : List (String × SummaryEntry)) (idx : Nat)
    (p : Prediction) (c : String) :
    optCount ((summaryStep acc idx p).lookup c) =
      optCount (acc.lookup c) + (if p.«class» = c then 1 else 0) := by
  unfold summaryStep
  by_cases hs : (acc.lookup p.«class»).isSome
  · rw [if_pos hs, lookup_bump_map]
    by_cases hc : c = p.«class»
    · rw [if_pos hc]
      subst hc
      obtain ⟨e, he⟩ := Option.isSome_iff_exists.mp hs
      rw [he]
      simp [optCount]
    · rw [if_neg hc, if_neg (fun h => hc h.symm)]
      simp
  · rw [if_neg hs, lookup_bump_map, lookup_entries_append]
    by_cases hc : c = p.«class»
    · subst hc
      rw [if_pos rfl, if_pos rfl]
      have hnone : acc.lookup p.«class» = none := Option.not_isSome_iff_eq_none.mp hs
      rw [hnone, lookup_pair_cons, if_pos rfl]
      simp [optCount]
    · rw [if_neg hc, lookup_pair_cons, if_neg hc, if_neg (fun h => hc h.symm)]
      simp [List.lookup]

theorem summaryStep_lookup_isSome (acc : List (String × SummaryEntry)) (idx : Nat)
    (p : Prediction) (c : String) :
    ((summaryStep acc idx p).lookup c).isSome =
      ((acc.lookup c).isSome || (c == p.«class»)) := by
  unfold summaryStep
  by_cases hs : (acc.lookup p.«class»).isSome
  · rw [if_pos hs, lookup_bump_map]
    by_cases hc : c = p.«class»
    · subst hc
      rw [if_pos rfl]
      simp [hs]
    · rw [if_neg hc, beq_false_of_ne hc, Bool.or_false]
  · rw [if_neg hs, lookup_bump_map, lookup_entries_append]
    by_cases hc : c = p.«class»
    · subst hc
      rw [if_pos rfl]
      have hnone : acc.lookup p.«class» = none := Option.not_isSome_iff_eq_none.mp hs
      rw [hnone, lookup_pair_cons, if_pos rfl]
      simp
    · rw [if_neg hc, lookup_pair_cons, if_neg hc, beq_false_of_ne hc, Bool.or_false]
      simp [List.lookup]

theorem summaryGo_lookup_count (l : List Prediction) :
    ∀ (idx : Nat) (acc : List (String × SummaryEntry)) (c : String),
      optCount ((summaryGo idx acc l).lookup c) =
        optCount (acc.lookup c) + l.countP (fun p => p.«class» == c) := by
  induction l with
  | nil =>
    intro idx acc c
    simp [summaryGo]
  | cons p ps ih =>
    intro idx acc c
    simp only [summaryGo]
    rw [ih, summaryStep_lookup_count, List.countP_cons]
    by_cases hc : p.«class» = c
    · rw [if_pos hc, if_pos (by simpa using hc)]
      omega
    · rw [if_neg hc, if_neg (by simpa using hc)]
      omega

theorem summaryGo_lookup_isSome (l : List Prediction) :
    ∀ (idx : Nat) (acc : List (String × SummaryEntry)) (c : String),
      ((summaryGo idx acc l).lookup c).isSome =
        ((acc.lookup c).isSome || l.any (fun p => p.«class» == c)) := by
  induction l with
  | nil =>
    intro idx acc c
    simp [summaryGo]
  | cons p ps ih =>
    intro idx acc c
    simp only [summaryGo]
    rw [ih, summaryStep_lookup_isSome, List.any_cons]
    by_cases hc : p.«class» = c
    · subst hc
      simp [Bool.or_assoc]
    · rw [beq_false_of_ne (fun h => hc h.symm), beq_false_of_ne hc]
      simp

/-- C5 counterexample: in a scene whose only element's class `Door` has been
toggled hidden, `summaryData` still contains the `Door` entry with its count —
hidden classes are not excluded from the summary (the panel merely dims
them). -/
theorem summary_includes_hidden_counterexample :
    "Door" ∈ summaryState.hiddenClasses ∧
    (summaryData summaryState.localPredictions).lookup "Door" =
      some { count := 1, firstIndex := 0 } := by
  constructor
  · simp [summaryState]
  · norm_num [summaryData, summaryGo, summaryStep, sortedPredictions, insertByAreaDesc,
      summaryState, doorPred, List.lookup]

/-- C5 amended: `summaryData` has an entry for a class label exactly when some
element of the scene carries that label — hidden or not (`hiddenClasses` is
not consulted) — and the entry's count is the number of elements with that
label in the underlying element list, which the visibility toggles leave
untouched. -/
theorem summaryData_entries (ps : List Prediction) (c : String) :
    (((summaryData ps).lookup c).isSome = true ↔ ∃ p ∈ ps, p.«class» = c) ∧
    (∀ e, (summaryData ps).lookup c = some e →
      e.count = ps.countP (fun p => p.«class» == c)) := by
  constructor
  · rw [show summaryData ps = summaryGo 0 [] (sortedPredictions ps) from rfl,
      summaryGo_lookup_isSome]
    simp only [List.lookup, Option.isSome_none, Bool.false_or]
    rw [List.any_eq_true]
    constructor
    · rintro ⟨p, hp, hpc⟩
      exact ⟨p, (sortedPredictions_perm ps).subset hp, by simpa using hpc⟩
    · rintro ⟨p, hp, hpc⟩
      exact ⟨p, (sortedPredictions_perm ps).symm.subset hp, by simpa using hpc⟩
  · intro e he
    have hcount := summaryGo_lookup_count (sortedPredictions ps) 0 [] c
    rw [show summaryData ps = summaryGo 0 [] (sortedPredictions ps) from rfl] at he
    rw [he, (sortedPredictions_perm ps).countP_eq] at hcount
    simp only [optCount, List.lookup] at hcount
    omega

theorem summaryData_entries_witness :
    (summaryData [doorPred]).lookup "Door" = some { count := 1, firstIndex := 0 } ∧
    ({ count := 1, firstIndex := 0 } : SummaryEntry).count =
      [doorPred].countP (fun p => p.«class» == "Door") := by
  have he : (summaryData [doorPred]).lookup "Door" = some { count := 1, firstIndex := 0 } := by
    norm_num [summaryData, summaryGo, summaryStep, sortedPredictions, insertByAreaDesc,
      doorPred, List.lookup]
  exact ⟨he, (summaryData_entries [doorPred] "Door").2 _ he⟩

theorem char_toNat_ofNat (n : Nat) (h : n.isValidChar) : (Char.ofNat n).toNat = n := by
  simp [Char.ofNat, h, Char.toNat, Char.ofNatAux, UInt32.toNat]

theorem char_toNat_inj {c d : Char} (h : c.toNat = d.toNat) : c = d :=
  Char.eq_of_val_eq (UInt32.eq_of_toBitVec_eq (BitVec.eq_of_toNat_eq (by
    simpa [Char.toNat, UInt32.toNat] using h)))

theorem charLower_toNat (c : Char) (h : 65 ≤ c.toNat ∧ c.toNat ≤ 90) :
    (charLower c).toNat = c.toNat + 32 := by
  unfold charLower
  rw [if_pos h]
  exact char_toNat_ofNat _ (Or.inl (by omega))

theorem charUpper_toNat (c : Char) (h : 97 ≤ c.toNat ∧ c.toNat ≤ 122) :
    (charUpper c).toNat = c.toNat - 32 := by
  unfold charUpper
  rw [if_pos h]
  exact char_toNat_ofNat _ (Or.inl (by omega))

theorem charUpper_congr (c d : Char) (h : charLower c = charLower d) :
    charUpper c = charUpper d := by
  by_cases hc : 65 ≤ c.toNat ∧ c.toNat ≤ 90 <;> by_cases hd : 65 ≤ d.toNat ∧ d.toNat ≤ 90
  · have e1 := charLower_toNat c hc
    have e2 := charLower_toNat d hd
    have hn : c.toNat = d.toNat := by
      have hh := congrArg Char.toNat h
      rw [e1, e2] at hh
      omega
    rw [char_toNat_inj hn]
  · have e1 := charLower_toNat c hc
    have hdl : charLower d = d := by
      unfold charLower
      rw [if_neg hd]
    rw [hdl] at h
    have hdn : d.toNat = c.toNat + 32 := by
      have hh := congrArg Char.toNat h
      rw [e1] at hh
      omega
    have hcu : charUpper c = c := by
      unfold charUpper
      rw [if_neg (by omega)]
    have hdu : (charUpper d).toNat = d.toNat - 32 := charUpper_toNat d (by omega)
    rw [hcu]
    exact (char_toNat_inj (show (charUpper d).toNat = c.toNat by omega)).symm
  · have e2 := charLower_toNat d hd
    have hcl : charLower c = c := by
      unfold charLower
      rw [if_neg hc]
    rw [hcl] at h
    have hcn : c.toNat = d.toNat + 32 := by
      have hh := congrArg Char.toNat h
      rw [e2] at hh
      omega
    have hdu : charUpper d = d := by
      unfold charUpper
      rw [if_neg (by omega)]
    have hcu : (charUpper c).toNat = c.toNat - 32 := charUpper_toNat c (by omega)
    rw [hdu]
    exact char_toNat_inj (show (charUpper c).toNat = d.toNat by omega)
  · have hcl : charLower c = c := by
      unfold charLower
      rw [if_neg hc]
    have hdl : charLower d = d := by
      unfold charLower
      rw [if_neg hd]
    rw [hcl, hdl] at h
    rw [h]

theorem formatClassName_congr (s t : String) (h : jsToLowerCase s = jsToLowerCase t) :
    formatClassName s = formatClassName t := by
  obtain ⟨sd⟩ := s
  obtain ⟨td⟩ := t
  have hd : sd.map charLower = td.map charLower := congrArg String.data h
  cases sd with
  | nil =>
    cases td with
    | nil => rfl
    | cons d dr => simp at hd
  | cons c cr =>
    cases td with
    | nil => simp at hd
    | cons d dr =>
      simp only [List.map_cons, List.cons.injEq] at hd
      obtain ⟨h1, h2⟩ := hd
      show String.mk (charUpper c :: cr.map charLower) = String.mk (charUpper d :: dr.map charLower)
      rw [charUpper_congr c d h1, h2]

/-- C10: scene creation rewrites every model-supplied class label with
`formatClassName` (first character uppercased, the rest lowercased), and that
normalization merges labels differing only in letter case: labels with equal
(ASCII) lowercasings are mapped to the same normalized label, hence to one
class for colors, summary counts and visibility; e.g. `DOOR`, `dOOr` and
`door` all normalize to `Door`. -/
theorem formatClassName_title_case :
    (∀ predictions : List Prediction,
      (initLocalPredictions predictions).map (fun p => p.«class») =
        predictions.map (fun p => formatClassName p.«class»)) ∧
    (∀ s t : String, jsToLowerCase s = jsToLowerCase t → formatClassName s = formatClassName t) ∧
    formatClassName "DOOR" = "Door" ∧ formatClassName "dOOr" = "Door" ∧
    formatClassName "door" = "Door" := by
  refine ⟨?_, formatClassName_congr, by decide, by decide, by decide⟩
  intro predictions
  rw [initLocalPredictions, List.map_map]
  rfl

theorem formatClassName_title_case_witness :
    jsToLowerCase "DOOR" = jsToLowerCase "dOOr" ∧
    formatClassName "DOOR" = formatClassName "dOOr" :=
  ⟨by decide, formatClassName_title_case.2.1 "DOOR" "dOOr" (by decide)⟩

theorem removePrediction_spec_witness :
    removeState.localPredictions.count doorPred = 1 ∧
    (removePrediction removeState doorPred).localPredictions.length + 1 =
      removeState.localPredictions.length ∧
    (removePrediction removeState doorPred).localPredictions =
      removeState.localPredictions.erase doorPred := by
  have hcount : removeState.localPredictions.count doorPred = 1 := by
    simp [removeState, doorPred, windowPred, List.count_cons, Prediction.mk.injEq]
  have h := (removePrediction_spec removeState doorPred rfl rfl).1 hcount
  exact ⟨hcount, h.1, h.2⟩

end Floorplan
